import Mathlib

/-!
# Voice speaker sessions (`discord/voiceSpeaker.go`)

A shallow embedding of the per-guild voice playback session of
`src/discord/voiceSpeaker.go`: the session registry (`VoiceManager`), the
session state (`Voice`), its queue, and the operations `Connect`,
`FindChannel`, `Disconnect`, `stop`, `Speak`, `QueueAdd`, `QueueRemove`,
`QueueGetNext`, `Speaking`, `Silent`, `IsConnected`, `IsStreaming`.

The embedding is sequential: one call runs from entry to its return (or to
the point where it can never proceed).  The Go mutex embedded in `Voice` is
the field `locked`; acquiring it while it is held never returns, which is the
behaviour of `sync.Mutex` for a goroutine that already holds it.  The
external collaborators (discordgo transport, dca encoder, the file system,
the completion channel) are the oracle fields of `Env`; every call made to
one of them, every `Lock`/`Unlock`, and every read or write of the four
guarded fields is recorded, in program order, in a trace.
-/

namespace Discord

/-! ## Phrases -/

/-- Go `type VoicePhrase int`. -/
abbrev VoicePhrase := Int

def WelcomeToLobby : VoicePhrase := 0
def NewRoomCode : VoicePhrase := 1
def CaptureConnected : VoicePhrase := 2
def SeeYouLater : VoicePhrase := 3

/-- Lookup in the map `VoicePhraseNames`; a key that is not in a Go map reads
as the zero value, the empty string. -/
def VoicePhrase.ToString (phrase : VoicePhrase) : String :=
  if phrase = WelcomeToLobby then "WelcomeToLobby"
  else if phrase = NewRoomCode then "NewRoomCode"
  else if phrase = CaptureConnected then "CaptureConnected"
  else if phrase = SeeYouLater then "SeeYouLater"
  else ""

/-! ## External data -/

/-- The part of `discordgo.VoiceConnection` the session reads. -/
structure VoiceConnection where
  ChannelID : String
  deriving DecidableEq, Repr

/-- A `dca.EncodeSession`, identified by the file it was started on. -/
structure EncodeSession where
  path : String
  deriving DecidableEq, Repr

/-- A `dca.StreamingSession`, identified by the handles `dca.NewStream` got. -/
structure StreamingSession where
  source : Option EncodeSession
  vc : Option VoiceConnection
  deriving DecidableEq, Repr

/-- The two getters of `storage.GuildSettings` the session calls. -/
structure GuildSettings where
  GetBotSpeech : Bool
  GetLanguage : String
  deriving DecidableEq, Repr

/-- The fields of `discordgo.Channel` read by `FindChannel`. -/
structure Channel where
  ID : String
  Name : String
  Typ : Nat
  deriving DecidableEq, Repr

/-- The constant `discordgo.ChannelTypeGuildVoice`. -/
def ChannelTypeGuildVoice : Nat := 2

/-- The fields of `discordgo.VoiceState` read by `FindChannel`. -/
structure VoiceState where
  UserID : String
  ChannelID : String
  deriving DecidableEq, Repr

/-- The fields of `discordgo.Guild` read by `Connect` and `FindChannel`. -/
structure Guild where
  ID : String
  VoiceStates : List VoiceState
  deriving DecidableEq, Repr

/-- The fields of `discordgo.MessageCreate` read by `FindChannel`;
`AuthorID` is `m.Author.ID`. -/
structure MessageCreate where
  GuildID : String
  AuthorID : String
  deriving DecidableEq, Repr

/-- The result of `FindChannel`; its zero value has both fields empty. -/
structure TrackingChannel where
  ChannelID : String
  ChannelName : String
  deriving DecidableEq, Repr

/-! ## Session state, trace and outcomes -/

/-- The four fields of `Voice` that the session's mutex is meant to guard. -/
inductive Field where
  | VoiceConnection
  | EncodingSession
  | StreamingSession
  | Queue
  deriving DecidableEq, Repr

/-- What a call does that is visible outside the session value, in program
order. -/
inductive Event where
  | lock
  | unlock
  | access (f : Field)
  | ChannelVoiceJoin (gID cID : String)
  | ChangeChannel (cID : String)
  | connDisconnect
  | connSpeaking (b : Bool)
  | EncodeFile (path : String)
  | NewStream
  | encStop
  | encCleanup
  | Finished
  | doneSend
  | doneReceive
  | timeout
  deriving DecidableEq, Repr

/-- The struct `Voice`.  `locked` is the embedded `sync.Mutex`.  The channel
`done` is represented by the oracles `Env.receiverReady` and `Env.doneMsg`;
`EncodingOptions` is a constant that no modelled branch reads. -/
structure Voice where
  locked : Bool
  VoiceConnection : Option VoiceConnection
  EncodingSession : Option EncodeSession
  StreamingSession : Option StreamingSession
  Queue : List VoicePhrase
  sett : GuildSettings
  ChannelID : String
  deriving DecidableEq, Repr

/-- A session value together with the trace of what has happened so far. -/
structure Exec where
  voice : Voice
  trace : List Event
  deriving DecidableEq, Repr

/-- How a call ends: it returns a value; it waits forever (on the mutex or on
the completion channel); it aborts (nil dereference, unlock of an unlocked
mutex, slice out of range); or the model ran out of recursion budget. -/
inductive Outcome (α : Type) where
  | returned (val : α) (x : Exec)
  | blocked (x : Exec)
  | crashed (x : Exec)
  | exhausted (x : Exec)
  deriving DecidableEq, Repr

/-- The session and trace an outcome ends in. -/
def Outcome.exec {α : Type} : Outcome α → Exec
  | .returned _ x => x
  | .blocked x => x
  | .crashed x => x
  | .exhausted x => x

/-- The answers of the external collaborators.  An error is `some message`,
Go `nil` is `none`. -/
structure Env where
  /-- `os.Stat` based `fileExists`. -/
  fileExists : String → Bool
  /-- The constant `locale.DefaultLang`. -/
  DefaultLang : String
  /-- `s.GuildChannels(guildID)`; only the channel list is used, an error is
  logged and the loop runs over the list returned with it. -/
  GuildChannels : String → List Channel
  /-- `s.ChannelVoiceJoin(gID, cID, false, true)`. -/
  ChannelVoiceJoin : String → String → Option VoiceConnection × Option String
  /-- `conn.ChangeChannel(cID, false, true)`: the connection afterwards and
  the error. -/
  ChangeChannel : VoiceConnection → String → VoiceConnection × Option String
  /-- `conn.Disconnect()`. -/
  connDisconnect : VoiceConnection → Option String
  /-- `dca.EncodeFile(path, options)`. -/
  EncodeFile : String → Option EncodeSession × Option String
  /-- `enc.Stop()`. -/
  encStop : EncodeSession → Option String
  /-- The error of `stream.Finished()`. -/
  Finished : StreamingSession → Option String
  /-- The `select` of `Speak`: `some r` when `done` delivers `r` first,
  `none` when the eight seconds elapse first. -/
  doneMsg : Option (Option String)
  /-- Whether a receiver takes the value `stop` sends on the unbuffered
  channel `done`. -/
  receiverReady : Bool

/-- A computation over the session and trace. -/
def M (α : Type) : Type := Exec → Outcome α

def M.pure {α : Type} (a : α) : M α := fun x => .returned a x

def M.bind {α β : Type} (m : M α) (f : α → M β) : M β := fun x =>
  match m x with
  | .returned a y => f a y
  | .blocked y => .blocked y
  | .crashed y => .crashed y
  | .exhausted y => .exhausted y

instance : Monad M where
  pure := M.pure
  bind := M.bind

def getVoice : M Voice := fun x => .returned x.voice x

def setVoice (v : Voice) : M Unit := fun x => .returned () { x with voice := v }

def emit (e : Event) : M Unit := fun x => .returned () { x with trace := x.trace ++ [e] }

def block {α : Type} : M α := fun x => .blocked x

def crash {α : Type} : M α := fun x => .crashed x

def exhaust {α : Type} : M α := fun x => .exhausted x

/-- `voice.Lock()`: `sync.Mutex` is not reentrant, so a call that finds the
mutex held waits until it is released, which in a sequential run is never. -/
def Lock : M Unit := do
  let v ← getVoice
  if v.locked then block
  else
    setVoice { v with locked := true }
    emit .lock

/-- `voice.Unlock()`: unlocking an unlocked mutex is a fatal runtime error. -/
def Unlock : M Unit := do
  let v ← getVoice
  if v.locked then
    setVoice { v with locked := false }
    emit .unlock
  else crash

/-- The value `IsConnected` computes on a session. -/
def Voice.IsConnected (v : Voice) : Bool := v.VoiceConnection.isSome

/-- The value `IsStreaming` computes on a session. -/
def Voice.IsStreaming (v : Voice) : Bool :=
  v.VoiceConnection.isSome && v.StreamingSession.isSome && v.EncodingSession.isSome

/-- Whether a call returned. -/
def Outcome.isReturned {α : Type} : Outcome α → Bool
  | .returned _ _ => true
  | _ => false

/-- Whether the model ran out of recursion budget. -/
def Outcome.isExhausted {α : Type} : Outcome α → Bool
  | .exhausted _ => true
  | _ => false

/-- Whether a call waits forever. -/
def Outcome.isBlocked {α : Type} : Outcome α → Bool
  | .blocked _ => true
  | _ => false

/-- The value a call returned, if it returned. -/
def Outcome.val? {α : Type} : Outcome α → Option α
  | .returned a _ => some a
  | _ => none

/-! ## Queue -/

/-- Record a read or write of a guarded field. -/
def touch (f : Field) : M Unit := emit (.access f)

/-- `voice.Queue = append(voice.Queue, phrase)`. -/
def QueueAdd (phrase : VoicePhrase) : M Unit := do
  touch .Queue
  let v ← getVoice
  setVoice { v with Queue := v.Queue ++ [phrase] }

/-- `voice.Queue = append(voice.Queue[:phrase], voice.Queue[phrase+1:]...)`;
slicing past the length aborts. -/
def QueueRemove (phrase : Nat) : M Unit := do
  touch .Queue
  let v ← getVoice
  if phrase + 1 ≤ v.Queue.length then
    setVoice { v with Queue := v.Queue.take phrase ++ v.Queue.drop (phrase + 1) }
  else crash

/-- Pop the head of the queue; `none` is the nil pointer returned for an
empty queue. -/
def QueueGetNext : M (Option VoicePhrase) := do
  touch .Queue
  let v ← getVoice
  match v.Queue.head? with
  | none => pure none
  | some phrase =>
    QueueRemove 0
    pure (some phrase)

/-! ## Connection state -/

/-- `voice.VoiceConnection != nil`. -/
def IsConnected : M Bool := do
  touch .VoiceConnection
  let v ← getVoice
  pure v.VoiceConnection.isSome

/-- Connected, and both the streaming and the encoding handle are present;
the three tests are made in this order and stop at the first that fails. -/
def IsStreaming : M Bool := do
  if !(← IsConnected) then pure false
  else
    touch .StreamingSession
    if (← getVoice).StreamingSession.isNone then pure false
    else
      touch .EncodingSession
      if (← getVoice).EncodingSession.isNone then pure false
      else pure true

/-- `voice.VoiceConnection.Speaking(true)` when connected. -/
def Speaking : M Unit := do
  if (← IsConnected) then
    touch .VoiceConnection
    emit (.connSpeaking true)
  else pure ()

/-- `voice.VoiceConnection.Speaking(false)` when connected. -/
def Silent : M Unit := do
  if (← IsConnected) then
    touch .VoiceConnection
    emit (.connSpeaking false)
  else pure ()

/-- The loop of `FindChannel` over the channels of the guild: the first voice
channel that some voice state of the message author names. -/
def FindChannelLoop (channels : List Channel) (m : MessageCreate) (g : Guild) : TrackingChannel :=
  match channels with
  | [] => { ChannelID := "", ChannelName := "" }
  | channel :: rest =>
    if channel.Typ = ChannelTypeGuildVoice ∧
        g.VoiceStates.any (fun v => decide (v.UserID = m.AuthorID) && decide (channel.ID = v.ChannelID)) then
      { ChannelID := channel.ID, ChannelName := channel.Name }
    else FindChannelLoop rest m g

/-- `voice.FindChannel(s, m, g)`. -/
def FindChannel (env : Env) (m : MessageCreate) (g : Guild) : TrackingChannel :=
  FindChannelLoop (env.GuildChannels m.GuildID) m g

/-! ## Stop and disconnect -/

/-- The unexported `stop`, run by its callers under the lock. -/
def stop (env : Env) : M (Option String) := do
  if !(← IsStreaming) then pure none
  else
    -- voice.done <- nil
    if !env.receiverReady then block
    else
      emit .doneSend
      touch .EncodingSession
      match (← getVoice).EncodingSession with
      | none => crash
      | some enc =>
        emit .encStop
        match env.encStop enc with
        | some err => pure (some err)
        | none =>
          touch .EncodingSession
          emit .encCleanup
          pure none

/-- The exported `Stop`: `stop` between `Lock` and the deferred `Unlock`. -/
def Stop (env : Env) : M (Option String) := do
  Lock
  let err ← stop env
  Unlock
  pure err

/-- The body of `Disconnect` between `Lock` and the deferred `Unlock`. -/
def DisconnectLocked (env : Env) : M (Option String) := do
  if !(← IsConnected) then pure none
  else
    match (← stop env) with
    | some err => pure (some err)
    | none =>
      -- Leave the voice channel
      touch .VoiceConnection
      match (← getVoice).VoiceConnection with
      | none => crash
      | some conn =>
        emit .connDisconnect
        match env.connDisconnect conn with
        | some err => pure (some err)
        | none =>
          -- Clear the old voice connection in memory
          touch .VoiceConnection
          setVoice { (← getVoice) with VoiceConnection := none }
          pure none

/-- `voice.Disconnect()`. -/
def Disconnect (env : Env) : M (Option String) := do
  Lock
  let err ← DisconnectLocked env
  Unlock
  pure err

/-! ## Speak -/

/-- The pair `(msg, err)` that `Speak` returns. -/
abbrev SpeakResult := Option String × Option String

/-- The path `fmt.Sprintf("sounds/%s.%s.mp3", name, lang)`. -/
def soundFile (phrase : VoicePhrase) (lang : String) : String :=
  "sounds/" ++ VoicePhrase.ToString phrase ++ "." ++ lang ++ ".mp3"

/-- The part of `Speak` from the second `voice.Lock()` to its return: clean
up the finished playback, then continue with the queue or say goodbye.
`again` is the recursive call `voice.Speak(*qPhrase)`; the deferred
`voice.Silent()` runs when this call returns. -/
def SpeakFinish (env : Env) (again : VoicePhrase → M SpeakResult) (phrase : VoicePhrase)
    (msg : Option String) : M SpeakResult := do
  Lock
  -- Figure out why the streaming session stopped
  touch .StreamingSession
  match (← getVoice).StreamingSession with
  | none => crash
  | some stream =>
    emit .Finished
    let err := env.Finished stream
    -- Clean up the streaming session
    touch .StreamingSession
    setVoice { (← getVoice) with StreamingSession := none }
    -- Clean up the encoding session
    touch .EncodingSession
    match (← getVoice).EncodingSession with
    | none => crash
    | some _ =>
      emit .encStop
      touch .EncodingSession
      emit .encCleanup
      touch .EncodingSession
      setVoice { (← getVoice) with EncodingSession := none }
      Unlock
      match (← QueueGetNext) with
      | some qPhrase =>
        let r ← again qPhrase
        Silent
        pure r
      | none =>
        if phrase = SeeYouLater then
          let _ ← Disconnect env
          Silent
          pure (msg, err)
        else
          Silent
          pure (msg, err)

/-- The part of `Speak` from `dca.EncodeFile` on; `fileName` is the variable
of the outer scope. -/
def SpeakEncode (env : Env) (again : VoicePhrase → M SpeakResult) (phrase : VoicePhrase)
    (fileName : String) : M SpeakResult := do
  emit (.EncodeFile fileName)
  touch .EncodingSession
  setVoice { (← getVoice) with EncodingSession := (env.EncodeFile fileName).1 }
  match (env.EncodeFile fileName).2 with
  | some err => pure (none, some err)
  | none =>
    Speaking
    -- voice.done = make(chan error)
    touch .EncodingSession
    touch .VoiceConnection
    emit .NewStream
    touch .StreamingSession
    let v ← getVoice
    setVoice { v with StreamingSession := some { source := v.EncodingSession, vc := v.VoiceConnection } }
    Unlock
    -- Wait for the streaming session to finish
    match env.doneMsg with
    | some msg =>
      emit .doneReceive
      SpeakFinish env again phrase msg
    | none =>
      emit .timeout
      SpeakFinish env again phrase none

/-- One activation of `voice.Speak(phrase)`, with the recursive call as the
argument `again`.  The inner `fileName := ...` of the source declares a new
variable in the scope of the `if`; the variable handed to `dca.EncodeFile`
is the outer one. -/
def SpeakBody (env : Env) (again : VoicePhrase → M SpeakResult) (phrase : VoicePhrase) :
    M SpeakResult := do
  -- Make sure we're connected first
  if !(← IsConnected) then pure (none, none)
  else if (← IsStreaming) then
    QueueAdd phrase
    pure (none, none)
  else
    Lock
    let fileName := soundFile phrase (← getVoice).sett.GetLanguage
    if !env.fileExists fileName then
      -- try get default lang
      let fileName1 := soundFile phrase env.DefaultLang
      if !env.fileExists fileName1 then pure (none, none)
      else SpeakEncode env again phrase fileName
    else SpeakEncode env again phrase fileName

/-- `Speak` with a bound on the depth of the recursion. -/
def SpeakFuel (env : Env) : Nat → VoicePhrase → M SpeakResult
  | 0 => fun _ => exhaust
  | fuel + 1 => SpeakBody env (SpeakFuel env fuel)

/-- `voice.Speak(phrase)`.  Each recursive call is made after popping one
phrase, so a depth of one more than the length of the queue is never
exceeded (`SpeakFuel_never_exhausted`, `SpeakFuel_enough`). -/
def Speak (env : Env) (phrase : VoicePhrase) : M SpeakResult := fun x =>
  SpeakFuel env (x.voice.Queue.length + 1) phrase x

/-! ## Connect -/

/-- The body of `Connect` between `Lock` and the deferred `Unlock`, from the
point where the channel has been found. -/
def ConnectQueue (env : Env) : M (Option String) := do
  match (← QueueGetNext) with
  | some qPhrase =>
    if !(← IsStreaming) then
      let _ ← Speak env qPhrase
      pure none
    else pure none
  | none => pure none

/-- The body of `Connect` between `Lock` and the deferred `Unlock`. -/
def ConnectLocked (env : Env) (g : Guild) (m : MessageCreate) : M (Option String) := do
  let channel := FindChannel env m g
  if channel.ChannelName = "" then pure (some "Chanel not found")
  else if !(← IsConnected) then
    emit (.ChannelVoiceJoin g.ID channel.ChannelID)
    touch .VoiceConnection
    setVoice { (← getVoice) with VoiceConnection := (env.ChannelVoiceJoin g.ID channel.ChannelID).1 }
    match (env.ChannelVoiceJoin g.ID channel.ChannelID).2 with
    | some err => pure (some err)
    | none => ConnectQueue env
  else
    touch .VoiceConnection
    match (← getVoice).VoiceConnection with
    | none => crash
    | some conn =>
      if channel.ChannelID ≠ conn.ChannelID then
        touch .VoiceConnection
        emit (.ChangeChannel channel.ChannelID)
        setVoice { (← getVoice) with VoiceConnection := some (env.ChangeChannel conn channel.ChannelID).1 }
        match (env.ChangeChannel conn channel.ChannelID).2 with
        | some err => pure (some err)
        | none => ConnectQueue env
      else ConnectQueue env

/-- `voice.Connect(s, g, m)`. -/
def Connect (env : Env) (g : Guild) (m : MessageCreate) : M (Option String) := do
  if !(← getVoice).sett.GetBotSpeech then pure none
  else
    Lock
    let err ← ConnectLocked env g m
    Unlock
    pure err

/-- `v.GetChannelID()`. -/
def GetChannelID (v : Voice) : String := v.ChannelID

/-! ## Registry -/

/-- The map `Sessions` of `VoiceManager`, as the list of its entries in the
order in which a `range` over it visits them (any order is possible). -/
structure VoiceManager where
  Sessions : List (String × Voice)

/-- The map read `vm.Sessions[guildID]`. -/
def VoiceManager.lookup (vm : VoiceManager) (guildID : String) : Option Voice :=
  (vm.Sessions.find? (fun e => decide (e.1 = guildID))).map Prod.snd

/-- `newVoice(channelID, sett)`. -/
def newVoice (channelID : String) (sett : GuildSettings) : Voice :=
  { locked := false, VoiceConnection := none, EncodingSession := none, StreamingSession := none,
    Queue := [], sett := sett, ChannelID := channelID }

/-- `vm.AddSession(s, g, ChannelID, sett)`: the registry afterwards and the
session returned. -/
def AddSession (vm : VoiceManager) (g : Guild) (ChannelID : String) (sett : GuildSettings) :
    VoiceManager × Voice :=
  match vm.lookup g.ID with
  | some voice => (vm, voice)
  | none => ({ Sessions := vm.Sessions ++ [(g.ID, newVoice ChannelID sett)] }, newVoice ChannelID sett)

/-- `vm.DeleteSession(guildID)`. -/
def DeleteSession (vm : VoiceManager) (guildID : String) : VoiceManager :=
  { Sessions := vm.Sessions.filter (fun e => !decide (e.1 = guildID)) }

/-- `vm.GetByChannelID(channelID)`: the first session, in visiting order,
whose `GetChannelID()` is `channelID`. -/
def GetByChannelID (vm : VoiceManager) (channelID : String) : Option Voice :=
  (vm.Sessions.find? (fun e => decide (GetChannelID e.2 = channelID))).map Prod.snd

/-- The registry after the session of guild `guildID` has been mutated
through its pointer into `voice`. -/
def VoiceManager.store (vm : VoiceManager) (guildID : String) (voice : Voice) : VoiceManager :=
  { Sessions := vm.Sessions.map (fun e => if e.1 = guildID then (e.1, voice) else e) }

/-! ## Observations on traces and drivers -/

/-- Call `Speak` on each phrase of a list, in order. -/
def speakEach (env : Env) : List VoicePhrase → M Unit
  | [] => pure ()
  | p :: ps => do
    let _ ← Speak env p
    speakEach env ps

/-- Call `QueueGetNext` a number of times and collect what it returns. -/
def popEach : Nat → M (List (Option VoicePhrase))
  | 0 => pure []
  | n + 1 => do
    let r ← QueueGetNext
    let rs ← popEach n
    pure (r :: rs)

/-- The events that only record a read or write of a guarded field. -/
def Event.isAccess : Event → Bool
  | .access _ => true
  | _ => false

/-- The calls made to the voice transport: join, channel change, disconnect. -/
def Event.isTransport : Event → Bool
  | .ChannelVoiceJoin _ _ => true
  | .ChangeChannel _ => true
  | .connDisconnect => true
  | _ => false

/-- The transport calls of a trace, in order. -/
def transportCalls (tr : List Event) : List Event := tr.filter Event.isTransport

/-- The trace `tr1` is `tr` followed only by reads and writes of guarded
fields. -/
def OnlyAccesses (tr tr1 : List Event) : Prop :=
  ∃ acc, tr1 = tr ++ acc ∧ acc.all Event.isAccess = true

/-- An environment in which every collaborator succeeds and the English sound
files of the welcome and farewell phrases exist. -/
def envOk : Env :=
  { fileExists := fun p =>
      p == "sounds/WelcomeToLobby.en.mp3" || p == "sounds/SeeYouLater.en.mp3",
    DefaultLang := "en",
    GuildChannels := fun _ =>
      [{ ID := "t1", Name := "general", Typ := 0 }, { ID := "c1", Name := "Lobby", Typ := 2 },
        { ID := "c2", Name := "Game", Typ := 2 }],
    ChannelVoiceJoin := fun _ cID => (some { ChannelID := cID }, none),
    ChangeChannel := fun _ cID => ({ ChannelID := cID }, none),
    connDisconnect := fun _ => none,
    EncodeFile := fun p => (some { path := p }, none),
    encStop := fun _ => none,
    Finished := fun _ => none,
    doneMsg := some none,
    receiverReady := true }

/-- A guild in which user `u1` sits in voice channel `c1`. -/
def guildA : Guild := { ID := "g", VoiceStates := [{ UserID := "u1", ChannelID := "c1" }] }

/-- A message of user `u1` in guild `g`. -/
def msgA : MessageCreate := { GuildID := "g", AuthorID := "u1" }

/-- A fresh session of a guild with bot speech enabled and language `en`. -/
def voiceNew : Voice := newVoice "c1" { GetBotSpeech := true, GetLanguage := "en" }

/-- The environment `envOk` with a transport whose `Disconnect` fails. -/
def envCloseFails : Env := { envOk with connDisconnect := fun _ => some "close failed" }

/-- A session connected to `c1`, idle, with an empty queue and a free lock. -/
def voiceIdle : Voice := { voiceNew with VoiceConnection := some { ChannelID := "c1" } }

/-- The events of `Speak` from its entry to the end of the wait, when it
plays `fileName` on a connected, idle session. -/
def playEvents (env : Env) (v : Voice) (fileName : String) : List Event :=
  [Event.access Field.VoiceConnection, Event.access Field.VoiceConnection,
      Event.access Field.StreamingSession] ++
    (if v.StreamingSession.isSome then [Event.access Field.EncodingSession] else []) ++
    [Event.lock, Event.EncodeFile fileName, Event.access Field.EncodingSession,
      Event.access Field.VoiceConnection, Event.access Field.VoiceConnection,
      Event.connSpeaking true, Event.access Field.EncodingSession,
      Event.access Field.VoiceConnection, Event.NewStream, Event.access Field.StreamingSession,
      Event.unlock] ++
    [if env.doneMsg.isSome then Event.doneReceive else Event.timeout]

/-- The events of `Speak` from the second `voice.Lock()` to the pop of the
queue. -/
def finishEvents : List Event :=
  [Event.lock, Event.access Field.StreamingSession, Event.Finished,
    Event.access Field.StreamingSession, Event.access Field.EncodingSession, Event.encStop,
    Event.access Field.EncodingSession, Event.encCleanup, Event.access Field.EncodingSession,
    Event.unlock, Event.access Field.Queue]

/-- The environment `envOk` with no sound file at all. -/
def envNoFiles : Env := { envOk with fileExists := fun _ => false }

/-- The idle connected session `voiceIdle` of a guild whose language is `ru`. -/
def voiceRu : Voice := { voiceIdle with sett := { GetBotSpeech := true, GetLanguage := "ru" } }

/-- The calls to `dca.EncodeFile`. -/
def Event.isEncodeFile : Event → Bool
  | .EncodeFile _ => true
  | _ => false

/-- A session connected to `c1` that is streaming the welcome phrase, with
one phrase waiting in the queue. -/
def voiceStreaming : Voice :=
  { voiceIdle with
    EncodingSession := some { path := "sounds/WelcomeToLobby.en.mp3" },
    StreamingSession := some { source := some { path := "sounds/WelcomeToLobby.en.mp3" },
                               vc := some { ChannelID := "c1" } },
    Queue := [NewRoomCode] }

/-- A session that is not connected and has one phrase waiting in the queue. -/
def voiceQueued : Voice := { voiceNew with Queue := [WelcomeToLobby] }

/-- A guild in which user `u1` sits in voice channel `c2`. -/
def guildB : Guild := { ID := "g", VoiceStates := [{ UserID := "u1", ChannelID := "c2" }] }

/-- Whether every read or write of a guarded field in a trace happens
between a `lock` and the next `unlock`; the first argument tells whether the
lock is held at the start. -/
def guardedFrom : Bool → List Event → Bool
  | _, [] => true
  | _, Event.lock :: es => guardedFrom true es
  | _, Event.unlock :: es => guardedFrom false es
  | held, Event.access _ :: es => held && guardedFrom held es
  | held, _ :: es => guardedFrom held es

/-! ## Running a computation -/

theorem bind_apply {α β : Type} (m : M α) (f : α → M β) (x : Exec) :
    (m >>= f) x = M.bind m f x := rfl

theorem pure_apply {α : Type} (a : α) (x : Exec) : (pure a : M α) x = .returned a x := rfl

/-! ## The recursion of `Speak` is bounded by the queue -/

theorem SpeakFinish_congr (env : Env) (again1 again2 : VoicePhrase → M SpeakResult)
    (p : VoicePhrase) (msg : Option String) (x : Exec)
    (hag : ∀ q y, y.voice.Queue.length < x.voice.Queue.length → again1 q y = again2 q y) :
    SpeakFinish env again1 p msg x = SpeakFinish env again2 p msg x := by
  obtain ⟨v, t⟩ := x
  obtain ⟨l, c, e, s, q, st, ch⟩ := v
  cases l
  · cases s
    · simp [SpeakFinish, bind_apply, pure_apply, M.bind, Lock, getVoice, setVoice, emit, touch, crash]
    · cases e
      · simp [SpeakFinish, bind_apply, pure_apply, M.bind, Lock, getVoice, setVoice, emit, touch,
          crash]
      · cases q with
        | nil =>
          simp [SpeakFinish, bind_apply, pure_apply, M.bind, Lock, Unlock, getVoice, setVoice, emit,
            touch, crash, QueueGetNext]
        | cons a rest =>
          simp [SpeakFinish, bind_apply, pure_apply, M.bind, Lock, Unlock, getVoice, setVoice, emit,
            touch, crash, QueueGetNext, QueueRemove]
          rw [hag]
          simp
  · simp [SpeakFinish, bind_apply, pure_apply, M.bind, Lock, getVoice, block]

theorem SpeakEncode_congr (env : Env) (again1 again2 : VoicePhrase → M SpeakResult)
    (p : VoicePhrase) (fileName : String) (x : Exec)
    (hag : ∀ q y, y.voice.Queue.length < x.voice.Queue.length → again1 q y = again2 q y) :
    SpeakEncode env again1 p fileName x = SpeakEncode env again2 p fileName x := by
  obtain ⟨v, t⟩ := x
  obtain ⟨l, c, e, s, q, st, ch⟩ := v
  cases h2 : (env.EncodeFile fileName).2 with
  | some err =>
    simp [SpeakEncode, bind_apply, pure_apply, M.bind, getVoice, setVoice, emit, touch, h2]
  | none =>
    cases l <;> cases c <;> cases hd : env.doneMsg <;>
    simp [SpeakEncode, bind_apply, pure_apply, M.bind, getVoice, setVoice, emit, touch, h2, hd,
      Speaking, IsConnected, Unlock, crash] <;>
    exact SpeakFinish_congr env again1 again2 p _ _ hag

theorem SpeakBody_congr (env : Env) (again1 again2 : VoicePhrase → M SpeakResult)
    (p : VoicePhrase) (x : Exec)
    (hag : ∀ q y, y.voice.Queue.length < x.voice.Queue.length → again1 q y = again2 q y) :
    SpeakBody env again1 p x = SpeakBody env again2 p x := by
  obtain ⟨v, t⟩ := x
  obtain ⟨l, c, e, s, q, st, ch⟩ := v
  have key : ∀ f y, y.voice.Queue = q →
      SpeakEncode env again1 p f y = SpeakEncode env again2 p f y := by
    intro f y hy
    apply SpeakEncode_congr
    intro q1 y1 h1
    apply hag
    simpa [hy] using h1
  cases l <;> cases c <;> cases e <;> cases s <;>
  simp [SpeakBody, bind_apply, pure_apply, M.bind, getVoice, setVoice, emit, touch,
      IsStreaming, IsConnected, Lock, block, QueueAdd] <;>
  (split <;> (try split) <;> first | exact key _ _ rfl | rfl)

/-- Any recursion budget above the length of the queue gives the same run. -/
theorem SpeakFuel_enough (env : Env) (n m : Nat) (p : VoicePhrase) (x : Exec)
    (hn : x.voice.Queue.length < n) (hm : x.voice.Queue.length < m) :
    SpeakFuel env n p x = SpeakFuel env m p x := by
  induction n generalizing m p x with
  | zero => omega
  | succ n ih =>
    cases m with
    | zero => omega
    | succ m =>
      show SpeakBody env (SpeakFuel env n) p x = SpeakBody env (SpeakFuel env m) p x
      apply SpeakBody_congr
      intro q y hy
      exact ih m q y (by omega) (by omega)

/-- The recursive equation of `Speak`, as in the source. -/
theorem Speak_unfold (env : Env) (p : VoicePhrase) (x : Exec) :
    Speak env p x = SpeakBody env (Speak env) p x := by
  show SpeakBody env (SpeakFuel env x.voice.Queue.length) p x = _
  apply SpeakBody_congr
  intro q y hy
  exact SpeakFuel_enough env _ _ q y hy (by omega)

theorem Silent_eq (x : Exec) :
    Silent x = .returned () ⟨x.voice, x.trace ++
      (if x.voice.IsConnected then
        [Event.access Field.VoiceConnection, Event.access Field.VoiceConnection, Event.connSpeaking false]
      else [Event.access Field.VoiceConnection])⟩ := by
  obtain ⟨v, t⟩ := x
  obtain ⟨l, c, e, s, q, st, ch⟩ := v
  cases c <;>
  simp [Silent, IsConnected, bind_apply, pure_apply, M.bind, getVoice, emit, touch, Voice.IsConnected]

theorem SpeakFinish_isExhausted (env : Env) (again : VoicePhrase → M SpeakResult)
    (p : VoicePhrase) (msg : Option String) (x : Exec)
    (hag : ∀ q y, y.voice.Queue.length < x.voice.Queue.length → (again q y).isExhausted = false) :
    (SpeakFinish env again p msg x).isExhausted = false := by
  obtain ⟨v, t⟩ := x
  obtain ⟨l, c, e, s, q, st, ch⟩ := v
  cases l
  · cases s
    · simp [SpeakFinish, bind_apply, pure_apply, M.bind, Lock, getVoice, setVoice, emit, touch, crash,
        Outcome.isExhausted]
    · cases e
      · simp [SpeakFinish, bind_apply, pure_apply, M.bind, Lock, getVoice, setVoice, emit, touch, crash,
          Outcome.isExhausted]
      · cases q with
        | nil =>
          by_cases hp : p = SeeYouLater
          · cases c with
            | none =>
              simp [SpeakFinish, bind_apply, pure_apply, M.bind, Lock, Unlock, getVoice, setVoice, emit,
                touch, crash, QueueGetNext, hp, Disconnect, DisconnectLocked, IsConnected, Silent,
                Outcome.isExhausted]
            | some conn =>
              cases hd : env.connDisconnect conn <;>
              simp [SpeakFinish, bind_apply, pure_apply, M.bind, Lock, Unlock, getVoice, setVoice, emit,
                touch, crash, QueueGetNext, hp, Disconnect, DisconnectLocked, IsConnected, Silent,
                stop, IsStreaming, hd, Outcome.isExhausted]
          · cases c <;>
            simp [SpeakFinish, bind_apply, pure_apply, M.bind, Lock, Unlock, getVoice, setVoice, emit,
              touch, crash, QueueGetNext, hp, IsConnected, Silent, Outcome.isExhausted]
        | cons a rest =>
          have h := hag a ⟨⟨false, c, none, none, rest, st, ch⟩,
            t ++ [Event.lock, Event.access Field.StreamingSession, Event.Finished,
              Event.access Field.StreamingSession, Event.access Field.EncodingSession, Event.encStop,
              Event.access Field.EncodingSession, Event.encCleanup, Event.access Field.EncodingSession,
              Event.unlock, Event.access Field.Queue, Event.access Field.Queue]⟩ (by simp)
          simp [SpeakFinish, bind_apply, pure_apply, M.bind, Lock, Unlock, getVoice, setVoice, emit,
            touch, crash, QueueGetNext, QueueRemove]
          revert h
          cases again a _ <;>
          simp [bind_apply, pure_apply, M.bind, Silent_eq, Outcome.isExhausted]
  · simp [SpeakFinish, bind_apply, pure_apply, M.bind, Lock, getVoice, block, Outcome.isExhausted]

theorem SpeakEncode_isExhausted (env : Env) (again : VoicePhrase → M SpeakResult)
    (p : VoicePhrase) (fileName : String) (x : Exec)
    (hag : ∀ q y, y.voice.Queue.length < x.voice.Queue.length → (again q y).isExhausted = false) :
    (SpeakEncode env again p fileName x).isExhausted = false := by
  obtain ⟨v, t⟩ := x
  obtain ⟨l, c, e, s, q, st, ch⟩ := v
  cases h2 : (env.EncodeFile fileName).2 with
  | some err =>
    simp [SpeakEncode, bind_apply, pure_apply, M.bind, getVoice, setVoice, emit, touch, h2,
      Outcome.isExhausted]
  | none =>
    cases l <;> cases c <;> cases hd : env.doneMsg <;>
    simp [SpeakEncode, bind_apply, pure_apply, M.bind, getVoice, setVoice, emit, touch, h2, hd,
      Speaking, IsConnected, Unlock, crash, Outcome.isExhausted] <;>
    exact SpeakFinish_isExhausted env again p _ _ hag

theorem SpeakBody_isExhausted (env : Env) (again : VoicePhrase → M SpeakResult)
    (p : VoicePhrase) (x : Exec)
    (hag : ∀ q y, y.voice.Queue.length < x.voice.Queue.length → (again q y).isExhausted = false) :
    (SpeakBody env again p x).isExhausted = false := by
  obtain ⟨v, t⟩ := x
  obtain ⟨l, c, e, s, q, st, ch⟩ := v
  have key : ∀ f y, y.voice.Queue = q → (SpeakEncode env again p f y).isExhausted = false := by
    intro f y hy
    apply SpeakEncode_isExhausted
    intro q1 y1 h1
    apply hag
    simpa [hy] using h1
  by_cases h1 : env.fileExists (soundFile p st.GetLanguage) = true <;>
  by_cases h2 : env.fileExists (soundFile p env.DefaultLang) = true <;>
  cases l <;> cases c <;> cases e <;> cases s <;>
  simp [SpeakBody, bind_apply, pure_apply, M.bind, getVoice, setVoice, emit, touch,
      IsStreaming, IsConnected, Lock, block, QueueAdd, h1, h2] <;>
  first | exact key _ _ rfl | simp [Outcome.isExhausted]

/-- With a budget above the length of the queue the bound is never hit. -/
theorem SpeakFuel_never_exhausted (env : Env) (n : Nat) (p : VoicePhrase) (x : Exec)
    (hn : x.voice.Queue.length < n) : (SpeakFuel env n p x).isExhausted = false := by
  induction n generalizing p x with
  | zero => omega
  | succ n ih =>
    show (SpeakBody env (SpeakFuel env n) p x).isExhausted = false
    apply SpeakBody_isExhausted
    intro q y hy
    exact ih q y (by omega)

/-- The bound in the definition of `Speak` is never hit: every run of `Speak`
returns, waits forever or aborts. -/
theorem Speak_never_exhausted (env : Env) (p : VoicePhrase) (x : Exec) :
    (Speak env p x).isExhausted = false :=
  SpeakFuel_never_exhausted env _ p x (Nat.lt_succ_self _)

/-! ## Queue order -/

theorem Speak_streaming (env : Env) (p : VoicePhrase) (v : Voice) (tr : List Event)
    (h : v.IsStreaming = true) :
    Speak env p ⟨v, tr⟩ = .returned (none, none) ⟨{ v with Queue := v.Queue ++ [p] },
      tr ++ [.access .VoiceConnection, .access .VoiceConnection, .access .StreamingSession,
        .access .EncodingSession, .access .Queue]⟩ := by
  obtain ⟨l, c, e, s, q, st, ch⟩ := v
  cases c <;> cases e <;> cases s <;> simp [Voice.IsStreaming] at h
  simp [Speak, SpeakFuel, SpeakBody, bind_apply, pure_apply, M.bind, getVoice, setVoice, emit, touch,
      IsStreaming, IsConnected, QueueAdd]

theorem QueueGetNext_cons (v : Voice) (p : VoicePhrase) (rest : List VoicePhrase)
    (tr : List Event) :
    QueueGetNext ⟨{ v with Queue := p :: rest }, tr⟩ =
      .returned (some p) ⟨{ v with Queue := rest }, tr ++ [.access .Queue, .access .Queue]⟩ := by
  simp [QueueGetNext, QueueRemove, bind_apply, pure_apply, M.bind, getVoice, setVoice, emit, touch]

theorem QueueGetNext_nil (v : Voice) (tr : List Event) :
    QueueGetNext ⟨{ v with Queue := [] }, tr⟩ =
      .returned none ⟨{ v with Queue := [] }, tr ++ [.access .Queue]⟩ := by
  simp [QueueGetNext, bind_apply, pure_apply, M.bind, getVoice, emit, touch]

theorem speakEach_streaming (env : Env) (ps : List VoicePhrase) (v : Voice) (tr : List Event)
    (h : v.IsStreaming = true) :
    ∃ acc, speakEach env ps ⟨v, tr⟩ = .returned () ⟨{ v with Queue := v.Queue ++ ps }, tr ++ acc⟩ ∧
      acc.all Event.isAccess = true := by
  induction ps generalizing v tr with
  | nil => exact ⟨[], by simp [speakEach, pure_apply], rfl⟩
  | cons p ps ih =>
    have h1 : ({ v with Queue := v.Queue ++ [p] } : Voice).IsStreaming = true := by
      simpa [Voice.IsStreaming] using h
    obtain ⟨acc, hacc, hall⟩ := ih { v with Queue := v.Queue ++ [p] }
      (tr ++ [.access .VoiceConnection, .access .VoiceConnection, .access .StreamingSession,
        .access .EncodingSession, .access .Queue]) h1
    refine ⟨[.access .VoiceConnection, .access .VoiceConnection, .access .StreamingSession,
        .access .EncodingSession, .access .Queue] ++ acc, ?_, ?_⟩
    · simp only [speakEach, bind_apply, M.bind, Speak_streaming env p v tr h, hacc]
      simp
    · simpa [Event.isAccess] using hall

theorem popEach_all (v : Voice) (q : List VoicePhrase) (tr : List Event) :
    ∃ tr1, popEach (q.length + 1) ⟨{ v with Queue := q }, tr⟩ =
      .returned (q.map some ++ [none]) ⟨{ v with Queue := [] }, tr1⟩ := by
  induction q generalizing tr with
  | nil =>
    exact ⟨tr ++ [.access .Queue], by simp [popEach, bind_apply, pure_apply, M.bind, QueueGetNext_nil]⟩
  | cons p rest ih =>
    obtain ⟨tr1, h1⟩ := ih (tr ++ [.access .Queue, .access .Queue])
    refine ⟨tr1, ?_⟩
    rw [popEach]
    simp only [bind_apply, M.bind, QueueGetNext_cons, List.length_cons] at h1 ⊢
    rw [h1]
    simp [pure_apply]

/-- C1. While a session is streaming, calling `Speak` on each phrase of `ps` in
order returns each time without starting playback (only guarded fields are
read or written, no encoder or transport call is made) and leaves the queue
equal to the old queue followed by `ps`; successive `QueueGetNext` calls then
return the phrases of that queue in order, each call removing exactly the
head, and return the absent value with the queue left empty once all have
been popped. -/
theorem Speak_while_streaming_is_fifo (env : Env) (v : Voice) (tr : List Event)
    (ps : List VoicePhrase) (h : v.IsStreaming = true) :
    (∃ acc, speakEach env ps ⟨v, tr⟩ =
        .returned () ⟨{ v with Queue := v.Queue ++ ps }, tr ++ acc⟩ ∧
      acc.all Event.isAccess = true) ∧
    (∀ tr1, ∃ tr2, popEach ((v.Queue ++ ps).length + 1) ⟨{ v with Queue := v.Queue ++ ps }, tr1⟩ =
        .returned ((v.Queue ++ ps).map some ++ [none]) ⟨{ v with Queue := [] }, tr2⟩) ∧
    (∀ p rest tr1, QueueGetNext ⟨{ v with Queue := p :: rest }, tr1⟩ =
        .returned (some p) ⟨{ v with Queue := rest }, tr1 ++ [.access .Queue, .access .Queue]⟩) ∧
    (∀ tr1, QueueGetNext ⟨{ v with Queue := [] }, tr1⟩ =
        .returned none ⟨{ v with Queue := [] }, tr1 ++ [.access .Queue]⟩) :=
  ⟨speakEach_streaming env ps v tr h, fun tr1 => popEach_all v _ tr1,
    fun p rest tr1 => QueueGetNext_cons v p rest tr1, fun tr1 => QueueGetNext_nil v tr1⟩

/-! ## Connect -/

theorem OnlyAccesses_append (tr acc : List Event) :
    OnlyAccesses tr (tr ++ acc) ↔ acc.all Event.isAccess = true := by
  constructor
  · rintro ⟨acc1, h1, h2⟩
    rw [List.append_cancel_left h1]
    exact h2
  · intro h
    exact ⟨acc, rfl, h⟩

theorem OnlyAccesses_refl (tr : List Event) : OnlyAccesses tr tr := ⟨[], by simp, rfl⟩

theorem OnlyAccesses_trans {a b c : List Event} (h1 : OnlyAccesses a b) (h2 : OnlyAccesses b c) :
    OnlyAccesses a c := by
  obtain ⟨x, rfl, hx⟩ := h1
  obtain ⟨y, rfl, hy⟩ := h2
  exact ⟨x ++ y, by simp, by simp [List.all_append, hx, hy]⟩

theorem transportCalls_append (a b : List Event) :
    transportCalls (a ++ b) = transportCalls a ++ transportCalls b := by
  simp [transportCalls]

theorem transportCalls_access (acc : List Event) (h : acc.all Event.isAccess = true) :
    transportCalls acc = [] := by
  induction acc with
  | nil => rfl
  | cons e es ih =>
    rw [List.all_cons, Bool.and_eq_true] at h
    obtain ⟨h1, h2⟩ := h
    cases e <;> simp [Event.isAccess] at h1
    simpa [transportCalls, Event.isTransport] using ih h2

theorem transportCalls_OnlyAccesses {tr tr1 : List Event} (h : OnlyAccesses tr tr1) :
    transportCalls tr1 = transportCalls tr := by
  obtain ⟨acc, rfl, hacc⟩ := h
  rw [transportCalls_append, transportCalls_access acc hacc, List.append_nil]

/-- With the lock held, `Speak` returns at one of its first two tests or
waits forever at `voice.Lock()`; it leaves the connection alone. -/
theorem Speak_locked (env : Env) (p : VoicePhrase) (x : Exec) (hl : x.voice.locked = true) :
    OnlyAccesses x.trace (Speak env p x).exec.trace ∧
      (Speak env p x).exec.voice.VoiceConnection = x.voice.VoiceConnection ∧
      (Speak env p x).exec.voice.locked = true ∧
      (Speak env p x).exec.voice.ChannelID = x.voice.ChannelID ∧
      (Speak env p x).exec.voice.sett = x.voice.sett ∧
      (Speak env p x = .returned (none, none) (Speak env p x).exec ∨
        Speak env p x = .blocked (Speak env p x).exec) := by
  obtain ⟨v, t⟩ := x
  obtain ⟨l, c, e, s, q, st, ch⟩ := v
  simp only at hl
  subst hl
  cases c <;> cases e <;> cases s <;>
  simp [Speak, SpeakFuel, SpeakBody, bind_apply, pure_apply, M.bind, getVoice, setVoice, emit, touch,
      IsStreaming, IsConnected, QueueAdd, Lock, block, Event.isAccess, Outcome.exec,
      OnlyAccesses_append]

/-- Under the lock of `Connect`, the queue step makes no transport call and
leaves the connection alone; it returns no error or waits forever. -/
theorem ConnectQueue_locked (env : Env) (x : Exec) (hl : x.voice.locked = true) :
    OnlyAccesses x.trace (ConnectQueue env x).exec.trace ∧
      (ConnectQueue env x).exec.voice.VoiceConnection = x.voice.VoiceConnection ∧
      (ConnectQueue env x).exec.voice.locked = true ∧
      (ConnectQueue env x).exec.voice.ChannelID = x.voice.ChannelID ∧
      (ConnectQueue env x).exec.voice.sett = x.voice.sett ∧
      (ConnectQueue env x = .returned none (ConnectQueue env x).exec ∨
        ConnectQueue env x = .blocked (ConnectQueue env x).exec) := by
  obtain ⟨v, t⟩ := x
  obtain ⟨l, c, e, s, q, st, ch⟩ := v
  simp only at hl
  subst hl
  cases q with
  | nil =>
    simp [ConnectQueue, QueueGetNext, bind_apply, pure_apply, M.bind, getVoice, emit, touch,
      Outcome.exec, OnlyAccesses_append, Event.isAccess]
  | cons a rest =>
    cases c <;> cases e <;> cases s <;>
    simp [ConnectQueue, QueueGetNext, QueueRemove, bind_apply, pure_apply, M.bind, getVoice, setVoice,
      emit, touch, IsStreaming, IsConnected, Outcome.exec, OnlyAccesses_append, Event.isAccess,
      Speak, SpeakFuel, SpeakBody, Lock, block]

theorem ConnectLocked_spec (env : Env) (g : Guild) (m : MessageCreate) (x : Exec)
    (hl : x.voice.locked = true) (hn : (FindChannel env m g).ChannelName ≠ "") :
    transportCalls (ConnectLocked env g m x).exec.trace = transportCalls x.trace ++
        (match x.voice.VoiceConnection with
          | none => [Event.ChannelVoiceJoin g.ID (FindChannel env m g).ChannelID]
          | some conn =>
            if (FindChannel env m g).ChannelID ≠ conn.ChannelID then
              [Event.ChangeChannel (FindChannel env m g).ChannelID]
            else []) ∧
      (ConnectLocked env g m x).exec.voice.VoiceConnection =
        (match x.voice.VoiceConnection with
          | none => (env.ChannelVoiceJoin g.ID (FindChannel env m g).ChannelID).1
          | some conn =>
            if (FindChannel env m g).ChannelID ≠ conn.ChannelID then
              some (env.ChangeChannel conn (FindChannel env m g).ChannelID).1
            else some conn) ∧
      (ConnectLocked env g m x).exec.voice.locked = true ∧
      (ConnectLocked env g m x).exec.voice.ChannelID = x.voice.ChannelID ∧
      (ConnectLocked env g m x).exec.voice.sett = x.voice.sett ∧
      ((∃ err, ConnectLocked env g m x = .returned err (ConnectLocked env g m x).exec) ∨
        ConnectLocked env g m x = .blocked (ConnectLocked env g m x).exec) := by
  obtain ⟨v, t⟩ := x
  obtain ⟨l, c, e, s, q, st, ch⟩ := v
  simp only at hl
  subst hl
  cases c with
  | none =>
    cases hj : (env.ChannelVoiceJoin g.ID (FindChannel env m g).ChannelID).2 with
    | some err =>
      simp [ConnectLocked, hn, hj, bind_apply, pure_apply, M.bind, getVoice, setVoice, emit, touch,
        IsConnected, Outcome.exec, transportCalls, Event.isTransport]
    | none =>
      obtain ⟨h1, h2, h3, h4, h5, h6⟩ := ConnectQueue_locked env
        ⟨⟨true, (env.ChannelVoiceJoin g.ID (FindChannel env m g).ChannelID).1, e, s, q, st, ch⟩,
          t ++ [Event.access Field.VoiceConnection,
            Event.ChannelVoiceJoin g.ID (FindChannel env m g).ChannelID,
            Event.access Field.VoiceConnection]⟩ rfl
      simp [ConnectLocked, hn, hj, bind_apply, pure_apply, M.bind, getVoice, setVoice, emit, touch,
        IsConnected]
      refine ⟨?_, h2, h3, h4, h5, ?_⟩
      · rw [transportCalls_OnlyAccesses h1]
        simp [transportCalls, Event.isTransport]
      · rcases h6 with h | h
        · exact Or.inl ⟨none, h⟩
        · exact Or.inr h
  | some conn =>
    by_cases hc : (FindChannel env m g).ChannelID = conn.ChannelID
    · obtain ⟨h1, h2, h3, h4, h5, h6⟩ := ConnectQueue_locked env
        ⟨⟨true, some conn, e, s, q, st, ch⟩,
          t ++ [Event.access Field.VoiceConnection, Event.access Field.VoiceConnection]⟩ rfl
      simp [ConnectLocked, hn, hc, bind_apply, pure_apply, M.bind, getVoice, setVoice, emit, touch,
        IsConnected]
      refine ⟨?_, h2, h3, h4, h5, ?_⟩
      · rw [transportCalls_OnlyAccesses h1]
        simp [transportCalls, Event.isTransport]
      · rcases h6 with h | h
        · exact Or.inl ⟨none, h⟩
        · exact Or.inr h
    · cases hj : (env.ChangeChannel conn (FindChannel env m g).ChannelID).2 with
      | some err =>
        simp [ConnectLocked, hn, hc, hj, bind_apply, pure_apply, M.bind, getVoice, setVoice, emit,
          touch, IsConnected, Outcome.exec, transportCalls, Event.isTransport]
      | none =>
        obtain ⟨h1, h2, h3, h4, h5, h6⟩ := ConnectQueue_locked env
          ⟨⟨true, some (env.ChangeChannel conn (FindChannel env m g).ChannelID).1, e, s, q, st, ch⟩,
            t ++ [Event.access Field.VoiceConnection, Event.access Field.VoiceConnection,
              Event.access Field.VoiceConnection,
              Event.ChangeChannel (FindChannel env m g).ChannelID]⟩ rfl
        simp [ConnectLocked, hn, hc, hj, bind_apply, pure_apply, M.bind, getVoice, setVoice, emit,
          touch, IsConnected]
        refine ⟨?_, h2, h3, h4, h5, ?_⟩
        · rw [transportCalls_OnlyAccesses h1]
          simp [transportCalls, Event.isTransport]
        · rcases h6 with h | h
          · exact Or.inl ⟨none, h⟩
          · exact Or.inr h

/-- What `Connect` does on a session whose lock is free, with bot speech
enabled, when the channel of the author is found. -/
theorem Connect_spec (env : Env) (g : Guild) (m : MessageCreate) (v : Voice) (tr : List Event)
    (hs : v.sett.GetBotSpeech = true) (hl : v.locked = false)
    (hn : (FindChannel env m g).ChannelName ≠ "") :
    transportCalls (Connect env g m ⟨v, tr⟩).exec.trace = transportCalls tr ++
        (match v.VoiceConnection with
          | none => [Event.ChannelVoiceJoin g.ID (FindChannel env m g).ChannelID]
          | some conn =>
            if (FindChannel env m g).ChannelID ≠ conn.ChannelID then
              [Event.ChangeChannel (FindChannel env m g).ChannelID]
            else []) ∧
      (Connect env g m ⟨v, tr⟩).exec.voice.VoiceConnection =
        (match v.VoiceConnection with
          | none => (env.ChannelVoiceJoin g.ID (FindChannel env m g).ChannelID).1
          | some conn =>
            if (FindChannel env m g).ChannelID ≠ conn.ChannelID then
              some (env.ChangeChannel conn (FindChannel env m g).ChannelID).1
            else some conn) ∧
      (Connect env g m ⟨v, tr⟩).exec.voice.ChannelID = v.ChannelID ∧
      (Connect env g m ⟨v, tr⟩).exec.voice.sett = v.sett ∧
      ((Connect env g m ⟨v, tr⟩).isReturned = true →
        (Connect env g m ⟨v, tr⟩).exec.voice.locked = false) := by
  obtain ⟨l, c, e, s, q, st, ch⟩ := v
  simp only at hl hs
  subst hl
  obtain ⟨h1, h2, h3, h4, h5, h6⟩ := ConnectLocked_spec env g m
    ⟨⟨true, c, e, s, q, st, ch⟩, tr ++ [Event.lock]⟩ rfl hn
  have hC : Connect env g m ⟨⟨false, c, e, s, q, st, ch⟩, tr⟩ =
      M.bind (ConnectLocked env g m) (fun err => M.bind Unlock (fun _ => M.pure err))
        ⟨⟨true, c, e, s, q, st, ch⟩, tr ++ [Event.lock]⟩ := by
    simp [Connect, hs, bind_apply, M.bind, getVoice, setVoice, emit, Lock]
    rfl
  rw [hC]
  generalize (ConnectLocked env g m ⟨⟨true, c, e, s, q, st, ch⟩, tr ++ [Event.lock]⟩).exec = z
    at h1 h2 h3 h4 h5 h6
  rcases h6 with ⟨err, h⟩ | h
  · obtain ⟨zv, zt⟩ := z
    simp only at h1 h2 h3 h4 h5
    simp [M.bind, M.pure, h, Unlock, bind_apply, getVoice, setVoice, emit, h3, Outcome.exec,
      h2, h4, h5, Outcome.isReturned]
    simp [transportCalls, Event.isTransport] at h1 ⊢
    exact h1
  · simp [M.bind, h, Outcome.exec, h1, h2, h4, h5, Outcome.isReturned]
    simp [transportCalls, Event.isTransport]

/-- C2. On a session with bot speech enabled whose lock is free, when
`FindChannel` resolves the author to voice channel `c` (a channel that passes
the name test of `Connect`): `Connect` makes exactly one join to `c` and no
other transport call when the session is not connected, exactly one channel
change to `c` and no other transport call when it is connected elsewhere, and
no transport call when it is connected to `c`; so two consecutive successful
`Connect` calls on a session that was not connected, with a transport whose
join yields a connection on the requested channel, make one join in total. -/
theorem Connect_transport_decision (env : Env) (g : Guild) (m : MessageCreate) (v : Voice)
    (tr : List Event) (c : String)
    (hs : v.sett.GetBotSpeech = true) (hl : v.locked = false)
    (hn : (FindChannel env m g).ChannelName ≠ "") (hc : (FindChannel env m g).ChannelID = c) :
    (v.VoiceConnection = none →
      transportCalls (Connect env g m ⟨v, tr⟩).exec.trace =
        transportCalls tr ++ [Event.ChannelVoiceJoin g.ID c]) ∧
    (∀ conn, v.VoiceConnection = some conn → conn.ChannelID ≠ c →
      transportCalls (Connect env g m ⟨v, tr⟩).exec.trace =
        transportCalls tr ++ [Event.ChangeChannel c]) ∧
    (∀ conn, v.VoiceConnection = some conn → conn.ChannelID = c →
      transportCalls (Connect env g m ⟨v, tr⟩).exec.trace = transportCalls tr) ∧
    (∀ conn x1 x2, v.VoiceConnection = none →
      (env.ChannelVoiceJoin g.ID c).1 = some conn → conn.ChannelID = c →
      Connect env g m ⟨v, tr⟩ = .returned none x1 → Connect env g m x1 = .returned none x2 →
      transportCalls x2.trace = transportCalls tr ++ [Event.ChannelVoiceJoin g.ID c]) := by
  subst hc
  obtain ⟨h1, h2, h3, h4, h5⟩ := Connect_spec env g m v tr hs hl hn
  refine ⟨?_, ?_, ?_, ?_⟩
  · intro hv
    rw [h1, hv]
  · intro conn hv hne
    rw [h1, hv]
    simp [Ne.symm hne]
  · intro conn hv he
    rw [h1, hv]
    simp [he]
  · intro conn x1 x2 hv hj hcc hx1 hx2
    rw [hx1] at h1 h2 h4 h5
    simp only [Outcome.exec, Outcome.isReturned, true_implies] at h1 h2 h4 h5
    rw [hv] at h1 h2
    simp only [hj] at h2
    obtain ⟨k1, -, -, -, -⟩ := Connect_spec env g m x1.voice x1.trace (by rw [h4]; exact hs) h5 hn
    have hx : (⟨x1.voice, x1.trace⟩ : Exec) = x1 := rfl
    rw [hx, hx2, h2] at k1
    simp only [Outcome.exec] at k1
    rw [k1, h1]
    simp [hcc]

/-- C2 at a concrete input: a fresh session, author in `c1`; two calls, one
join. -/
theorem Connect_transport_decision_witness :
    transportCalls (Connect envOk guildA msgA ⟨voiceNew, []⟩).exec.trace =
        [Event.ChannelVoiceJoin "g" "c1"] ∧
      transportCalls
        (Connect envOk guildA msgA (Connect envOk guildA msgA ⟨voiceNew, []⟩).exec).exec.trace =
        [Event.ChannelVoiceJoin "g" "c1"] :=
  ⟨(Connect_transport_decision envOk guildA msgA voiceNew [] "c1" (by decide) (by decide)
      (by decide) (by decide)).1 rfl,
    (Connect_transport_decision envOk guildA msgA voiceNew [] "c1" (by decide) (by decide)
      (by decide) (by decide)).2.2.2 { ChannelID := "c1" } (Connect envOk guildA msgA ⟨voiceNew, []⟩).exec
      (Connect envOk guildA msgA (Connect envOk guildA msgA ⟨voiceNew, []⟩).exec).exec
      rfl rfl rfl (by decide) (by decide)⟩

/-! ## Disconnect -/

/-- C6 (amended). On a session whose lock is free: when it is not connected,
`Disconnect` returns no error and leaves the session as it was; when it is
connected, an error from stopping playback or from closing the transport is
returned to the caller and the connection handle is left in place, and only
when neither step reports an error is the handle cleared. -/
theorem Disconnect_clears_handle_only_on_success (env : Env) (v : Voice) (tr : List Event)
    (hl : v.locked = false) :
    (v.VoiceConnection = none → ∃ tr1, Disconnect env ⟨v, tr⟩ = .returned none ⟨v, tr1⟩) ∧
    (∀ conn enc err, v.VoiceConnection = some conn → v.IsStreaming = true →
      v.EncodingSession = some enc → env.receiverReady = true → env.encStop enc = some err →
      ∃ tr1, Disconnect env ⟨v, tr⟩ = .returned (some err) ⟨v, tr1⟩) ∧
    (∀ conn err, v.VoiceConnection = some conn →
      (v.IsStreaming = false ∨
        (env.receiverReady = true ∧ ∃ enc, v.EncodingSession = some enc ∧ env.encStop enc = none)) →
      env.connDisconnect conn = some err →
      ∃ tr1, Disconnect env ⟨v, tr⟩ = .returned (some err) ⟨v, tr1⟩) ∧
    (∀ conn, v.VoiceConnection = some conn →
      (v.IsStreaming = false ∨
        (env.receiverReady = true ∧ ∃ enc, v.EncodingSession = some enc ∧ env.encStop enc = none)) →
      env.connDisconnect conn = none →
      ∃ tr1, Disconnect env ⟨v, tr⟩ = .returned none ⟨{ v with VoiceConnection := none }, tr1⟩) := by
  obtain ⟨l, c, e, s, q, st, ch⟩ := v
  simp only at hl
  subst hl
  refine ⟨?_, ?_, ?_, ?_⟩
  · intro hc
    simp only at hc
    subst hc
    simp [Disconnect, DisconnectLocked, Lock, Unlock, IsConnected, bind_apply, pure_apply, M.bind,
      getVoice, setVoice, emit, touch]
  · intro conn enc err hc hs he hr hst
    simp only at hc he
    subst hc he
    cases s <;> simp [Voice.IsStreaming] at hs
    simp [Disconnect, DisconnectLocked, stop, IsStreaming, Lock, Unlock, IsConnected, bind_apply,
      pure_apply, M.bind, getVoice, setVoice, emit, touch, hr, hst]
  · intro conn err hc hs hd
    simp only at hc
    subst hc
    rcases hs with hs | ⟨hr, enc, he, hst⟩
    · cases e <;> cases s <;> simp [Voice.IsStreaming] at hs <;>
      simp [Disconnect, DisconnectLocked, stop, IsStreaming, Lock, Unlock, IsConnected, bind_apply,
        pure_apply, M.bind, getVoice, setVoice, emit, touch, hd]
    · simp only at he
      subst he
      cases s <;>
      simp [Disconnect, DisconnectLocked, stop, IsStreaming, Lock, Unlock, IsConnected, bind_apply,
        pure_apply, M.bind, getVoice, setVoice, emit, touch, hd, hr, hst]
  · intro conn hc hs hd
    simp only at hc
    subst hc
    rcases hs with hs | ⟨hr, enc, he, hst⟩
    · cases e <;> cases s <;> simp [Voice.IsStreaming] at hs <;>
      simp [Disconnect, DisconnectLocked, stop, IsStreaming, Lock, Unlock, IsConnected, bind_apply,
        pure_apply, M.bind, getVoice, setVoice, emit, touch, hd]
    · simp only at he
      subst he
      cases s <;>
      simp [Disconnect, DisconnectLocked, stop, IsStreaming, Lock, Unlock, IsConnected, bind_apply,
        pure_apply, M.bind, getVoice, setVoice, emit, touch, hd, hr, hst]

/-- C6 as stated fails: the close of the transport reports an error, and
`Disconnect` returns it with the connection handle still present. -/
theorem Disconnect_keeps_handle_on_close_error :
    (Disconnect envCloseFails ⟨voiceIdle, []⟩).val? = some (some "close failed") ∧
      (Disconnect envCloseFails ⟨voiceIdle, []⟩).exec.voice.VoiceConnection =
        some { ChannelID := "c1" } := by
  decide

/-- C6 (amended) at a concrete input: a free, idle, connected session and a
transport that closes without error. -/
theorem Disconnect_clears_handle_only_on_success_witness :
    ∃ tr1, Disconnect envOk ⟨voiceIdle, []⟩ =
      .returned none ⟨{ voiceIdle with VoiceConnection := none }, tr1⟩ :=
  (Disconnect_clears_handle_only_on_success envOk voiceIdle [] (by decide)).2.2.2
    { ChannelID := "c1" } rfl (Or.inl (by decide)) rfl

/-! ## Speak: playback and farewell -/

/-- On a connected, idle session with a free lock, `SpeakBody` reaches
`SpeakEncode` with the path of the configured language as soon as one of the
two existence tests passes. -/
theorem SpeakBody_idle (env : Env) (again : VoicePhrase → M SpeakResult) (p : VoicePhrase)
    (v : Voice) (tr : List Event) (conn : VoiceConnection)
    (hl : v.locked = false) (hc : v.VoiceConnection = some conn) (hs : v.IsStreaming = false)
    (hf : env.fileExists (soundFile p v.sett.GetLanguage) = true ∨
      env.fileExists (soundFile p env.DefaultLang) = true) :
    SpeakBody env again p ⟨v, tr⟩ =
      SpeakEncode env again p (soundFile p v.sett.GetLanguage)
        ⟨{ v with locked := true },
          tr ++ ([Event.access Field.VoiceConnection, Event.access Field.VoiceConnection,
            Event.access Field.StreamingSession] ++
            (if v.StreamingSession.isSome then [Event.access Field.EncodingSession] else []) ++
            [Event.lock])⟩ := by
  obtain ⟨l, c, e, s, q, st, ch⟩ := v
  simp only at hl hc hs hf
  subst hl hc
  have hfile : ∀ A B : M SpeakResult,
      (if env.fileExists (soundFile p st.GetLanguage) = false then
        if env.fileExists (soundFile p env.DefaultLang) = false then A else B else B) = B := by
    intro A B
    rcases hf with h | h <;> simp [h]
  cases s <;> cases e <;> simp [Voice.IsStreaming] at hs <;>
  simp [SpeakBody, IsStreaming, IsConnected, Lock, bind_apply, pure_apply, M.bind, getVoice,
    setVoice, emit, touch, hfile]

/-- When the encoder starts, `SpeakEncode` streams, waits, and reaches
`SpeakFinish` with the lock released. -/
theorem SpeakEncode_ok (env : Env) (again : VoicePhrase → M SpeakResult) (p : VoicePhrase)
    (fileName : String) (v : Voice) (tr : List Event) (conn : VoiceConnection)
    (enc : EncodeSession) (hl : v.locked = true) (hc : v.VoiceConnection = some conn)
    (he : env.EncodeFile fileName = (some enc, none)) :
    SpeakEncode env again p fileName ⟨v, tr⟩ =
      SpeakFinish env again p (env.doneMsg.getD none)
        ⟨{ v with locked := false, EncodingSession := some enc,
                   StreamingSession := some { source := some enc, vc := some conn } },
          tr ++ ([Event.EncodeFile fileName, Event.access Field.EncodingSession,
            Event.access Field.VoiceConnection, Event.access Field.VoiceConnection,
            Event.connSpeaking true, Event.access Field.EncodingSession,
            Event.access Field.VoiceConnection, Event.NewStream,
            Event.access Field.StreamingSession, Event.unlock] ++
            [if env.doneMsg.isSome then Event.doneReceive else Event.timeout])⟩ := by
  obtain ⟨l, c, e, s, q, st, ch⟩ := v
  simp only at hl hc
  subst hl hc
  cases hm : env.doneMsg <;>
  simp [SpeakEncode, Speaking, IsConnected, Unlock, bind_apply, pure_apply, M.bind, getVoice,
    setVoice, emit, touch, he, hm]

/-- With both handles present and the lock free, `SpeakFinish` clears the
handles, releases the lock and pops the queue: on a non-empty queue it
continues with the recursive call and the deferred `Silent`. -/
theorem SpeakFinish_cons (env : Env) (again : VoicePhrase → M SpeakResult) (p : VoicePhrase)
    (msg : Option String) (v : Voice) (tr : List Event) (enc : EncodeSession)
    (stream : StreamingSession) (q : VoicePhrase) (rest : List VoicePhrase)
    (hl : v.locked = false) (he : v.EncodingSession = some enc)
    (hs : v.StreamingSession = some stream) (hq : v.Queue = q :: rest) :
    SpeakFinish env again p msg ⟨v, tr⟩ =
      (again q >>= fun r => Silent >>= fun _ => pure r)
        ⟨{ v with EncodingSession := none, StreamingSession := none, Queue := rest },
          tr ++ (finishEvents ++ [Event.access Field.Queue])⟩ := by
  obtain ⟨l, c, e, s, q0, st, ch⟩ := v
  simp only at hl he hs hq
  subst hl he hs hq
  simp [SpeakFinish, QueueGetNext, QueueRemove, Lock, Unlock, bind_apply, pure_apply, M.bind,
    getVoice, setVoice, emit, touch, finishEvents]

/-- With both handles present, the lock free and the queue empty,
`SpeakFinish` of the farewell phrase calls `Disconnect` and then the deferred
`Silent`. -/
theorem SpeakFinish_nil_farewell (env : Env) (again : VoicePhrase → M SpeakResult)
    (msg : Option String) (v : Voice) (tr : List Event) (enc : EncodeSession)
    (stream : StreamingSession)
    (hl : v.locked = false) (he : v.EncodingSession = some enc)
    (hs : v.StreamingSession = some stream) (hq : v.Queue = []) :
    SpeakFinish env again SeeYouLater msg ⟨v, tr⟩ =
      (Disconnect env >>= fun _ => Silent >>= fun _ => pure (msg, env.Finished stream))
        ⟨{ v with EncodingSession := none, StreamingSession := none },
          tr ++ finishEvents⟩ := by
  obtain ⟨l, c, e, s, q0, st, ch⟩ := v
  simp only at hl he hs hq
  subst hl he hs hq
  simp [SpeakFinish, QueueGetNext, Lock, Unlock, bind_apply, pure_apply, M.bind,
    getVoice, setVoice, emit, touch, finishEvents]

/-- On a connected session that is not streaming, with a free lock,
`Disconnect` returns what the close of the transport returns and clears the
handle exactly when that is no error. -/
theorem Disconnect_not_streaming (env : Env) (v : Voice) (tr : List Event)
    (conn : VoiceConnection) (hl : v.locked = false) (hc : v.VoiceConnection = some conn)
    (hs : v.IsStreaming = false) :
    ∃ tr1, Disconnect env ⟨v, tr⟩ = .returned (env.connDisconnect conn)
      ⟨{ v with VoiceConnection := if (env.connDisconnect conn).isSome then some conn else none },
        tr1⟩ := by
  obtain ⟨l, c, e, s, q, st, ch⟩ := v
  simp only at hl hc
  subst hl hc
  cases hd : env.connDisconnect conn <;>
  cases e <;> cases s <;> simp [Voice.IsStreaming] at hs <;>
  simp [Disconnect, DisconnectLocked, stop, IsStreaming, Lock, Unlock, IsConnected, bind_apply,
    pure_apply, M.bind, getVoice, setVoice, emit, touch, hd]

/-- On a connected, idle session with a free lock, when one of the two
existence tests passes and the encoder starts on the path of the configured
language, `Speak` streams, waits, and reaches `SpeakFinish`. -/
theorem Speak_plays (env : Env) (p : VoicePhrase) (v : Voice) (tr : List Event)
    (conn : VoiceConnection) (enc : EncodeSession)
    (hl : v.locked = false) (hc : v.VoiceConnection = some conn) (hs : v.IsStreaming = false)
    (hf : env.fileExists (soundFile p v.sett.GetLanguage) = true ∨
      env.fileExists (soundFile p env.DefaultLang) = true)
    (he : env.EncodeFile (soundFile p v.sett.GetLanguage) = (some enc, none)) :
    Speak env p ⟨v, tr⟩ =
      SpeakFinish env (Speak env) p (env.doneMsg.getD none)
        ⟨{ v with EncodingSession := some enc,
                  StreamingSession := some { source := some enc, vc := some conn } },
          tr ++ playEvents env v (soundFile p v.sett.GetLanguage)⟩ := by
  obtain ⟨l, c, e, s, q0, st, ch⟩ := v
  simp only at hl hc hf he
  subst hl hc
  refine ((Speak_unfold env p ⟨⟨false, some conn, e, s, q0, st, ch⟩, tr⟩).trans
    ((SpeakBody_idle env (Speak env) p ⟨false, some conn, e, s, q0, st, ch⟩ tr conn
      rfl rfl hs hf).trans
    (SpeakEncode_ok env (Speak env) p _ ⟨true, some conn, e, s, q0, st, ch⟩ _ conn enc
      rfl rfl he))).trans ?_
  simp [playEvents]

theorem connDisconnect_not_mem_playEvents (env : Env) (v : Voice) (fileName : String) :
    Event.connDisconnect ∉ playEvents env v fileName := by
  cases h1 : v.StreamingSession <;> cases h2 : env.doneMsg <;> simp [playEvents, h1, h2]

/-- C3 (amended). On a connected, non-streaming session whose lock is free,
when `Speak` plays the farewell phrase (one of the two existence tests passes
and the encoder starts): with an empty queue `Speak` calls `Disconnect` and
returns, and the connection handle is absent when the close of the transport
reports no error and still present when it reports one; with a non-empty queue
`Speak` pops the head, makes no transport disconnect of its own, and continues
as `Speak` on the popped phrase followed by the deferred `Silent`. -/
theorem Speak_farewell (env : Env) (v : Voice) (tr : List Event) (conn : VoiceConnection)
    (enc : EncodeSession) (hl : v.locked = false) (hc : v.VoiceConnection = some conn)
    (hs : v.IsStreaming = false)
    (hf : env.fileExists (soundFile SeeYouLater v.sett.GetLanguage) = true ∨
      env.fileExists (soundFile SeeYouLater env.DefaultLang) = true)
    (he : env.EncodeFile (soundFile SeeYouLater v.sett.GetLanguage) = (some enc, none)) :
    (v.Queue = [] → env.connDisconnect conn = none →
      ∃ r tr1, Speak env SeeYouLater ⟨v, tr⟩ = .returned r
        ⟨{ v with VoiceConnection := none, EncodingSession := none, StreamingSession := none },
          tr1⟩) ∧
    (v.Queue = [] → ∀ err, env.connDisconnect conn = some err →
      ∃ r tr1, Speak env SeeYouLater ⟨v, tr⟩ = .returned r
        ⟨{ v with EncodingSession := none, StreamingSession := none }, tr1⟩) ∧
    (∀ q rest, v.Queue = q :: rest →
      ∃ extra, Event.connDisconnect ∉ extra ∧
        Speak env SeeYouLater ⟨v, tr⟩ =
          (Speak env q >>= fun r => Silent >>= fun _ => pure r)
            ⟨{ v with EncodingSession := none, StreamingSession := none, Queue := rest },
              tr ++ extra⟩) := by
  have hplay := Speak_plays env SeeYouLater v tr conn enc hl hc hs hf he
  have hno := connDisconnect_not_mem_playEvents env v (soundFile SeeYouLater v.sett.GetLanguage)
  generalize playEvents env v (soundFile SeeYouLater v.sett.GetLanguage) = pre at hplay hno
  obtain ⟨l, c, e, s, q0, st, ch⟩ := v
  simp only at hl hc hf he hplay
  subst hl hc
  refine ⟨?_, ?_, ?_⟩
  · intro hq hd
    simp only at hq
    subst hq
    have hfin := SpeakFinish_nil_farewell env (Speak env) (env.doneMsg.getD none)
      ⟨false, some conn, some enc, some { source := some enc, vc := some conn }, [], st, ch⟩
      (tr ++ pre) enc _ rfl rfl rfl rfl
    obtain ⟨t1, h1⟩ := Disconnect_not_streaming env ⟨false, some conn, none, none, [], st, ch⟩
      (tr ++ pre ++ finishEvents) conn rfl rfl (by simp [Voice.IsStreaming])
    simp only [hd] at h1
    simp only [bind_apply, M.bind, h1] at hfin
    rw [hplay, hfin]
    simp [Silent_eq, pure_apply]
  · intro hq err hd
    simp only at hq
    subst hq
    have hfin := SpeakFinish_nil_farewell env (Speak env) (env.doneMsg.getD none)
      ⟨false, some conn, some enc, some { source := some enc, vc := some conn }, [], st, ch⟩
      (tr ++ pre) enc _ rfl rfl rfl rfl
    obtain ⟨t1, h1⟩ := Disconnect_not_streaming env ⟨false, some conn, none, none, [], st, ch⟩
      (tr ++ pre ++ finishEvents) conn rfl rfl (by simp [Voice.IsStreaming])
    simp only [hd] at h1
    simp only [bind_apply, M.bind, h1] at hfin
    rw [hplay, hfin]
    simp [Silent_eq, pure_apply]
  · intro q rest hq
    simp only at hq
    subst hq
    have hfin := SpeakFinish_cons env (Speak env) SeeYouLater (env.doneMsg.getD none)
      ⟨false, some conn, some enc, some { source := some enc, vc := some conn }, q :: rest, st, ch⟩
      (tr ++ pre) enc _ q rest rfl rfl rfl rfl
    refine ⟨pre ++ (finishEvents ++ [Event.access Field.Queue]), ?_, ?_⟩
    · simp [finishEvents, hno]
    · rw [hplay, hfin]
      simp only [List.append_assoc]

/-- C3 as stated fails: the farewell phrase is played with an empty queue,
`Speak` returns, and the connection handle is still present, because the close
of the transport reported an error. -/
theorem Speak_farewell_keeps_handle_on_close_error :
    (Speak envCloseFails SeeYouLater ⟨voiceIdle, []⟩).isReturned = true ∧
      Event.EncodeFile "sounds/SeeYouLater.en.mp3" ∈
        (Speak envCloseFails SeeYouLater ⟨voiceIdle, []⟩).exec.trace ∧
      (Speak envCloseFails SeeYouLater ⟨voiceIdle, []⟩).exec.voice.Queue = [] ∧
      (Speak envCloseFails SeeYouLater ⟨voiceIdle, []⟩).exec.voice.VoiceConnection =
        some { ChannelID := "c1" } := by
  decide

/-- C3 (amended) at a concrete input: an idle connected session with an empty
queue and a transport that closes without error. -/
theorem Speak_farewell_witness :
    ∃ r tr1, Speak envOk SeeYouLater ⟨voiceIdle, []⟩ = .returned r
      ⟨{ voiceIdle with VoiceConnection := none, EncodingSession := none,
                        StreamingSession := none }, tr1⟩ :=
  (Speak_farewell envOk voiceIdle [] { ChannelID := "c1" }
    { path := "sounds/SeeYouLater.en.mp3" } (by decide) rfl (by decide) (Or.inl (by decide))
    (by decide)).1 rfl rfl

/-! ## Speak: missing sound files -/

/-- On a connected, idle session with a free lock, when neither sound file
exists `Speak` returns `(nil, nil)` from between `voice.Lock()` and the first
`voice.Unlock()`: nothing is encoded and the handles and the queue are as
before, but the lock is still held. -/
theorem Speak_missing_asset (env : Env) (p : VoicePhrase) (v : Voice) (tr : List Event)
    (conn : VoiceConnection) (hl : v.locked = false) (hc : v.VoiceConnection = some conn)
    (hs : v.IsStreaming = false)
    (h1 : env.fileExists (soundFile p v.sett.GetLanguage) = false)
    (h2 : env.fileExists (soundFile p env.DefaultLang) = false) :
    Speak env p ⟨v, tr⟩ = .returned (none, none) ⟨{ v with locked := true },
      tr ++ ([Event.access Field.VoiceConnection, Event.access Field.VoiceConnection,
        Event.access Field.StreamingSession] ++
        (if v.StreamingSession.isSome then [Event.access Field.EncodingSession] else []) ++
        [Event.lock])⟩ := by
  obtain ⟨l, c, e, s, q, st, ch⟩ := v
  simp only at hl hc h1 h2
  subst hl hc
  rw [Speak_unfold]
  cases s <;> cases e <;> simp [Voice.IsStreaming] at hs <;>
  simp [SpeakBody, IsStreaming, IsConnected, Lock, bind_apply, pure_apply, M.bind, getVoice,
    setVoice, emit, touch, h1, h2]

/-- C4, the code at the failing input: a connected idle session, no sound
file in either language.  `Speak` returns `(nil, nil)` without encoding, the
handles and the queue are unchanged, and the lock is left held, so that the
next `Speak` on the session never returns. -/
theorem Speak_missing_asset_leaves_lock_held :
    Speak envNoFiles WelcomeToLobby ⟨voiceIdle, []⟩ =
        .returned (none, none) ⟨{ voiceIdle with locked := true },
          [Event.access Field.VoiceConnection, Event.access Field.VoiceConnection,
            Event.access Field.StreamingSession, Event.lock]⟩ ∧
      voiceIdle.locked = false ∧
      (Speak envNoFiles WelcomeToLobby
        (Speak envNoFiles WelcomeToLobby ⟨voiceIdle, []⟩).exec).isBlocked = true := by
  decide

/-- C5, the code at the failing input: language `ru`, only the default
(`en`) file of the phrase exists.  The second existence test passes, and the
path handed to `dca.EncodeFile` is the missing `ru` path. -/
theorem Speak_fallback_encodes_configured_path :
    envOk.fileExists (soundFile WelcomeToLobby voiceRu.sett.GetLanguage) = false ∧
      envOk.fileExists (soundFile WelcomeToLobby envOk.DefaultLang) = true ∧
      (Speak envOk WelcomeToLobby ⟨voiceRu, []⟩).exec.trace.filter Event.isEncodeFile =
        [Event.EncodeFile "sounds/WelcomeToLobby.ru.mp3"] := by
  decide

/-! ## Connect and the queue -/

/-- Under the lock of `Connect`, on a streaming session with a non-empty
queue, the queue step pops the head and then does not play it. -/
theorem ConnectQueue_streaming (env : Env) (v : Voice) (tr : List Event) (q : VoicePhrase)
    (rest : List VoicePhrase) (hs : v.IsStreaming = true) (hq : v.Queue = q :: rest) :
    ConnectQueue env ⟨v, tr⟩ = .returned none ⟨{ v with Queue := rest },
      tr ++ [Event.access Field.Queue, Event.access Field.Queue,
        Event.access Field.VoiceConnection, Event.access Field.StreamingSession,
        Event.access Field.EncodingSession]⟩ := by
  obtain ⟨l, c, e, s, q0, st, ch⟩ := v
  simp only at hq
  subst hq
  cases c <;> cases e <;> cases s <;> simp [Voice.IsStreaming] at hs
  simp [ConnectQueue, QueueGetNext, QueueRemove, IsStreaming, IsConnected, bind_apply, pure_apply,
    M.bind, getVoice, setVoice, emit, touch]

/-- Under the lock of `Connect`, on a connected session that is not streaming
and has a non-empty queue, the queue step pops the head and then waits
forever in `Speak`, at `voice.Lock()`. -/
theorem ConnectQueue_deadlock (env : Env) (v : Voice) (tr : List Event) (conn : VoiceConnection)
    (q : VoicePhrase) (rest : List VoicePhrase) (hl : v.locked = true)
    (hc : v.VoiceConnection = some conn) (hs : v.IsStreaming = false) (hq : v.Queue = q :: rest) :
    (ConnectQueue env ⟨v, tr⟩).isBlocked = true ∧
      (ConnectQueue env ⟨v, tr⟩).exec.voice = { v with Queue := rest } := by
  obtain ⟨l, c, e, s, q0, st, ch⟩ := v
  simp only at hl hc hq
  subst hl hc hq
  cases e <;> cases s <;> simp [Voice.IsStreaming] at hs <;>
  simp [ConnectQueue, QueueGetNext, QueueRemove, IsStreaming, IsConnected, bind_apply, pure_apply,
    M.bind, getVoice, setVoice, emit, touch, Speak, SpeakFuel, SpeakBody, Lock, block,
    Outcome.isBlocked, Outcome.exec]

/-- C7, the code at the failing input: a session streaming on `c1` with
`NewRoomCode` queued, author in `c1`.  `Connect` succeeds, makes no transport
call, and the queued phrase is gone without having been handed to the
encoder. -/
theorem Connect_while_streaming_drops_queued_phrase :
    voiceStreaming.IsStreaming = true ∧ voiceStreaming.Queue = [NewRoomCode] ∧
      (Connect envOk guildA msgA ⟨voiceStreaming, []⟩).val? = some none ∧
      (Connect envOk guildA msgA ⟨voiceStreaming, []⟩).exec.voice.Queue = [] ∧
      (Connect envOk guildA msgA ⟨voiceStreaming, []⟩).exec.voice.IsStreaming = true ∧
      (Connect envOk guildA msgA ⟨voiceStreaming, []⟩).exec.trace.filter Event.isEncodeFile = [] := by
  decide

/-- C8, the code at the failing input: a session that is not connected, with
`WelcomeToLobby` queued, author in `c1`.  `Connect` joins, pops the phrase and
calls `Speak` while holding the lock; `Speak` waits forever at `voice.Lock()`,
so `Connect` never returns, the lock stays held, and nothing is encoded. -/
theorem Connect_deadlocks_on_queued_phrase :
    (Connect envOk guildA msgA ⟨voiceQueued, []⟩).isBlocked = true ∧
      (Connect envOk guildA msgA ⟨voiceQueued, []⟩).exec.voice.locked = true ∧
      (Connect envOk guildA msgA ⟨voiceQueued, []⟩).exec.voice.VoiceConnection =
        some { ChannelID := "c1" } ∧
      (Connect envOk guildA msgA ⟨voiceQueued, []⟩).exec.voice.Queue = [] ∧
      (Connect envOk guildA msgA ⟨voiceQueued, []⟩).exec.trace.filter Event.isEncodeFile = [] ∧
      (Connect envOk guildA msgA ⟨voiceQueued, []⟩).exec.trace.getLast? =
        some (Event.access Field.StreamingSession) := by
  decide

/-! ## Channel tracking, lock discipline -/

/-- `Connect` never assigns `voice.ChannelID`. -/
theorem Connect_ChannelID (env : Env) (g : Guild) (m : MessageCreate) (v : Voice)
    (tr : List Event) : (Connect env g m ⟨v, tr⟩).exec.voice.ChannelID = v.ChannelID := by
  by_cases hs : v.sett.GetBotSpeech = true
  · by_cases hl : v.locked = false
    · by_cases hn : (FindChannel env m g).ChannelName = ""
      · obtain ⟨l, c, e, s, q, st, ch⟩ := v
        simp only at hs hl
        subst hl
        simp [Connect, ConnectLocked, Lock, Unlock, hs, hn, bind_apply, pure_apply, M.bind,
          getVoice, setVoice, emit, Outcome.exec]
      · exact (Connect_spec env g m v tr hs hl hn).2.2.1
    · obtain ⟨l, c, e, s, q, st, ch⟩ := v
      simp only [Bool.not_eq_false] at hs hl
      subst hl
      simp [Connect, Lock, hs, bind_apply, M.bind, getVoice, block, Outcome.exec]
  · obtain ⟨l, c, e, s, q, st, ch⟩ := v
    simp only [Bool.not_eq_true] at hs
    simp [Connect, hs, bind_apply, pure_apply, M.bind, getVoice, Outcome.exec]

theorem find?_isSome_map_congr {α : Type} (p : α → Bool) (f : α → α) (l : List α)
    (h : ∀ a ∈ l, p (f a) = p a) : ((l.map f).find? p).isSome = (l.find? p).isSome := by
  induction l with
  | nil => rfl
  | cons a l ih =>
    have ha := h a (List.mem_cons_self a l)
    have ih1 := ih (fun b hb => h b (List.mem_cons_of_mem a hb))
    simp only [List.map_cons, List.find?_cons, ha]
    cases p a
    · exact ih1
    · rfl

/-- C9 (amended). `Connect` leaves the session's `ChannelID` as it was:
whatever channel the session joins or moves to, `GetChannelID` returns after
the call what it returned before it, and so `GetByChannelID` on a registry
holding the session under its guild finds a session for exactly the same
channel IDs as before the call. -/
theorem Connect_keeps_ChannelID (env : Env) (g : Guild) (m : MessageCreate) (v : Voice)
    (tr : List Event) :
    GetChannelID (Connect env g m ⟨v, tr⟩).exec.voice = GetChannelID v ∧
    ∀ (vm : VoiceManager) (channelID : String),
      (∀ e ∈ vm.Sessions, e.1 = g.ID → e.2 = v) →
      (GetByChannelID (vm.store g.ID (Connect env g m ⟨v, tr⟩).exec.voice) channelID).isSome =
        (GetByChannelID vm channelID).isSome := by
  have h := Connect_ChannelID env g m v tr
  refine ⟨h, ?_⟩
  intro vm channelID hreg
  simp only [GetByChannelID, VoiceManager.store, Option.isSome_map']
  apply find?_isSome_map_congr
  intro e he
  by_cases hk : e.1 = g.ID
  · simp [hk, GetChannelID, h, hreg e he hk]
  · simp [hk]

/-- C9 as stated fails: a session created for `c1`, author in `c2`.
`Connect` succeeds with a join to `c2`, `GetChannelID` still returns `c1`, and
the registry finds the session under `c1` and nothing under `c2`. -/
theorem Connect_does_not_track_channel :
    (FindChannel envOk msgA guildB).ChannelID = "c2" ∧
      (Connect envOk guildB msgA ⟨voiceNew, []⟩).val? = some none ∧
      (Connect envOk guildB msgA ⟨voiceNew, []⟩).exec.voice.VoiceConnection =
        some { ChannelID := "c2" } ∧
      GetChannelID (Connect envOk guildB msgA ⟨voiceNew, []⟩).exec.voice = "c1" ∧
      GetByChannelID
        { Sessions := [("g", (Connect envOk guildB msgA ⟨voiceNew, []⟩).exec.voice)] } "c2" = none ∧
      (GetByChannelID
        { Sessions := [("g", (Connect envOk guildB msgA ⟨voiceNew, []⟩).exec.voice)] }
        "c1").isSome = true := by
  decide

/-- C9 (amended) at a concrete input: the registry holding the fresh session
of guild `g`, author in `c2`. -/
theorem Connect_keeps_ChannelID_witness :
    (GetByChannelID (VoiceManager.store { Sessions := [("g", voiceNew)] } guildB.ID
        (Connect envOk guildB msgA ⟨voiceNew, []⟩).exec.voice) "c1").isSome =
      (GetByChannelID { Sessions := [("g", voiceNew)] } "c1").isSome :=
  (Connect_keeps_ChannelID envOk guildB msgA voiceNew []).2 { Sessions := [("g", voiceNew)] } "c1"
    (by decide)

/-- C10, the code at the failing input: `Speak` on a streaming session.  It
reads the connection, streaming and encoding handles and appends to the queue
without ever taking the lock. -/
theorem Speak_touches_state_without_lock :
    guardedFrom false (Speak envOk WelcomeToLobby ⟨voiceStreaming, []⟩).exec.trace = false ∧
      (Speak envOk WelcomeToLobby ⟨voiceStreaming, []⟩).exec.trace =
        [Event.access Field.VoiceConnection, Event.access Field.VoiceConnection,
          Event.access Field.StreamingSession, Event.access Field.EncodingSession,
          Event.access Field.Queue] ∧
      (Speak envOk WelcomeToLobby ⟨voiceStreaming, []⟩).exec.voice.Queue =
        [NewRoomCode, WelcomeToLobby] := by
  decide

/-- C1 at a concrete input: two phrases spoken while streaming behind one
queued phrase. -/
theorem Speak_while_streaming_is_fifo_witness :
    ∃ tr2, popEach 4 ⟨{ voiceStreaming with Queue := [NewRoomCode, WelcomeToLobby, SeeYouLater] },
        []⟩ =
      .returned [some NewRoomCode, some WelcomeToLobby, some SeeYouLater, none]
        ⟨{ voiceStreaming with Queue := [] }, tr2⟩ :=
  (Speak_while_streaming_is_fifo envOk voiceStreaming [] [WelcomeToLobby, SeeYouLater]
    (by decide)).2.1 []

end Discord
